import Mathlib

/-!
Verification of the delta-neutral carry backtest core (`src/strategy.py`,
`src/optimization_engine.py`, `src/asset_ranker.py`) against its
natural-language specification.

Shallow embedding conventions:
* pandas `DataFrame`s become Lean `List`s of records, one record per row;
* Python floats become exact rationals `ℚ` (claims about limits of the
  financing schedule are additionally stated over `ℝ`, instantiating the
  same generic definition);
* fallible results (`None` in Python) become `Option`.
-/

namespace Carry

/-- One input observation: hourly `(datetime, price, funding)` row of the
time series handed to `FundingStrategy.run`.  `datetime` is modelled as
seconds (an absolute instant), matching `total_seconds()` arithmetic in
`get_metrics`. -/
structure Row where
  datetime : ℚ
  price : ℚ
  funding : ℚ
deriving DecidableEq, Inhabited

/-- One output row of `FundingStrategy.run`.  The Python code appends dicts;
a failure dict (`_fail_row`) omits the keys `funding_income`,
`interest_cost`, `breakeven_funding` (they become NaN in the DataFrame) —
those are modelled as `0` here; `fail_reason` is `none` on ordinary rows
(NaN in the DataFrame) and `some reason` on failure rows. -/
structure ResRow where
  datetime : ℚ
  price : ℚ
  total_equity : ℚ
  position_usd : ℚ
  hl_equity : ℚ
  ibkr_equity : ℚ
  ibkr_loan : ℚ
  funding_income : ℚ
  interest_cost : ℚ
  funding_apr : ℚ
  net_spread_apr : ℚ
  breakeven_funding : ℚ
  fail_reason : Option String
deriving DecidableEq, Inhabited

/-- Constructor parameters of `FundingStrategy.__init__` (the four mutable
knobs; the fixed constants set by `__init__` are the definitions below). -/
structure FundingStrategy where
  capital : ℚ
  hl_split_pct : ℚ
  benchmark_rate : ℚ
  safety_factor : ℚ
deriving DecidableEq, Inhabited

namespace FundingStrategy

/-- `self.cost_bps = 12.0` — execution fees in basis points. -/
def cost_bps : ℚ := 12

/-- `self.ibkr_max_lev = 6.6` — IBKR portfolio-margin hard cap. -/
def ibkr_max_lev : ℚ := 33 / 5

/-- `self.hl_max_lev = 20.0` — Hyperliquid leverage cap. -/
def hl_max_lev : ℚ := 20

/-- `self.hl_maint_margin = 0.05` — Hyperliquid maintenance margin. -/
def hl_maint_margin : ℚ := 1 / 20

end FundingStrategy

/-- `FundingStrategy._calc_tiered_interest`, stated generically over any
linear ordered field so the same translated definition can be read at `ℚ`
(exact program arithmetic) and at `ℝ` (limit statements).  Mirrors the
source line by line: early return on `loan_amount ≤ 0`, three cumulative
tiers, then `cost / 365 / 24`. -/
def calcTieredInterest {α : Type} [LinearOrderedField α]
    (benchmark_rate loan_amount : α) : α :=
  if loan_amount ≤ 0 then 0
  else
    let t1_amt := min loan_amount 100000
    let cost1 := t1_amt * (benchmark_rate + 15 / 1000)
    let cost2 :=
      if loan_amount > 100000 then
        min (loan_amount - 100000) 900000 * (benchmark_rate + 10 / 1000)
      else 0
    let cost3 :=
      if loan_amount > 1000000 then
        (loan_amount - 1000000) * (benchmark_rate + 75 / 10000)
      else 0
    (cost1 + cost2 + cost3) / 365 / 24

/-- The method `FundingStrategy._calc_tiered_interest` reads the benchmark
rate from `self`. -/
def FundingStrategy._calc_tiered_interest (s : FundingStrategy) (loan_amount : ℚ) : ℚ :=
  calcTieredInterest s.benchmark_rate loan_amount

/-- `FundingStrategy._calculate_max_safe_notional`. -/
def FundingStrategy._calculate_max_safe_notional
    (hl_allocation ibkr_allocation : ℚ) : ℚ :=
  min (hl_allocation * FundingStrategy.hl_max_lev)
    (ibkr_allocation * FundingStrategy.ibkr_max_lev)

/-- Step 1 of the loop body: `hl_allocation = total_equity * self.hl_split_pct`. -/
def hl_allocation (s : FundingStrategy) (total_equity : ℚ) : ℚ :=
  total_equity * s.hl_split_pct

/-- Step 1 of the loop body: `ibkr_allocation = total_equity * (1 - self.hl_split_pct)`. -/
def ibkr_allocation (s : FundingStrategy) (total_equity : ℚ) : ℚ :=
  total_equity * (1 - s.hl_split_pct)

/-- Step 2 of the loop body: `target_notional = max_safe_notional * safety_factor`. -/
def target_notional (s : FundingStrategy) (total_equity : ℚ) : ℚ :=
  FundingStrategy._calculate_max_safe_notional
      (hl_allocation s total_equity) (ibkr_allocation s total_equity) *
    s.safety_factor

/-- Loop section 4, "EXECUTION": given the hour's entering state and price,
returns `(total_equity after any trade cost, shares after any rebalance)`.
Mirrors the drift-tolerance logic: rebalance (paying
`|target_shares - shares| * price * cost_bps/10000`) only when the drift
between current and target notional exceeds 10 % of target (a zero target
forces `drift_pct = 999`, hence a rebalance). -/
def tradeState (s : FundingStrategy) (total_equity shares price : ℚ) : ℚ × ℚ :=
  let tn := target_notional s total_equity
  let current_notional := if shares > 0 then shares * price else 0
  let drift_pct := if tn > 0 then |current_notional - tn| / tn else 999
  if drift_pct > 10 / 100 then
    let target_shares := tn / price
    let diff_shares := |target_shares - shares|
    let trade_cost := diff_shares * price * (FundingStrategy.cost_bps / 10000)
    (total_equity - trade_cost, target_shares)
  else
    (total_equity, shares)

/-- `position_val = shares * price` after the execution step. -/
def position_val (s : FundingStrategy) (total_equity shares price : ℚ) : ℚ :=
  (tradeState s total_equity shares price).2 * price

/-- Loop section 5: `ibkr_loan = max(0, position_val - ibkr_allocation)`. -/
def ibkr_loan_amt (s : FundingStrategy) (total_equity shares price : ℚ) : ℚ :=
  max 0 (position_val s total_equity shares price - ibkr_allocation s total_equity)

/-- Loop section 7: equity after the hour's net PnL
(`funding income - hourly interest`) is added. -/
def post_equity (s : FundingStrategy) (total_equity shares : ℚ) (row : Row) : ℚ :=
  (tradeState s total_equity shares row.price).1 +
    (position_val s total_equity shares row.price * row.funding -
      s._calc_tiered_interest (ibkr_loan_amt s total_equity shares row.price))

/-- `FundingStrategy._fail_row`: the zero-equity failure row.  The Python
dict carries no `funding_income` / `interest_cost` / `breakeven_funding`
keys (NaN in the DataFrame); those fields are `0` here. -/
def FundingStrategy._fail_row (row : Row) (reason : String) : ResRow :=
  { datetime := row.datetime, price := row.price, total_equity := 0,
    hl_equity := 0, ibkr_equity := 0, position_usd := 0, ibkr_loan := 0,
    net_spread_apr := 0, funding_apr := 0, funding_income := 0,
    interest_cost := 0, breakeven_funding := 0, fail_reason := some reason }

/-- Outcome of one iteration of the `for` loop in `FundingStrategy.run`:
either a failure row is appended and the loop `break`s, or an ordinary row
is appended and the loop `break`s because `total_equity ≤ 0`, or an
ordinary row is appended and the loop continues with the new state. -/
inductive StepOut where
  | failed (r : ResRow)
  | stopped (r : ResRow)
  | continued (r : ResRow) (total_equity shares : ℚ)
deriving DecidableEq

/-- The row appended by a loop iteration, whatever the outcome. -/
def StepOut.row : StepOut → ResRow
  | .failed r => r
  | .stopped r => r
  | .continued r _ _ => r

/-- One iteration of the `for` loop of `FundingStrategy.run`, translated
section by section: allocation, target sizing, the two pre-trade solvency
checks, execution, financing cost, funding income, PnL update, the two
post-PnL maintenance checks (note: they divide the *entering* hour's
allocations by the position value), record, and the `total_equity <= 0`
break. -/
def step (s : FundingStrategy) (total_equity shares : ℚ) (row : Row) : StepOut :=
  if ibkr_allocation s total_equity > 0 ∧
      target_notional s total_equity / ibkr_allocation s total_equity >
        FundingStrategy.ibkr_max_lev then
    .failed (FundingStrategy._fail_row row "IBKR Margin Call (Lev > 6.6x)")
  else if hl_allocation s total_equity > 0 ∧
      target_notional s total_equity / hl_allocation s total_equity >
        FundingStrategy.hl_max_lev then
    .failed (FundingStrategy._fail_row row "HL Max Leverage Exceeded (>20x)")
  else
    let pv := position_val s total_equity shares row.price
    let loan := ibkr_loan_amt s total_equity shares row.price
    let hourly_interest := s._calc_tiered_interest loan
    let fund_income := pv * row.funding
    let e2 := post_equity s total_equity shares row
    if pv > 0 ∧ hl_allocation s total_equity / pv < FundingStrategy.hl_maint_margin then
      .failed (FundingStrategy._fail_row row "HL Liquidation (Equity < 5%)")
    else if pv > 0 ∧ ibkr_allocation s total_equity / pv < 10 / 100 then
      .failed (FundingStrategy._fail_row row "IBKR Margin Call (Equity < 10%)")
    else
      let rec_row : ResRow :=
        { datetime := row.datetime, price := row.price, total_equity := e2,
          position_usd := pv, hl_equity := hl_allocation s total_equity,
          ibkr_equity := ibkr_allocation s total_equity, ibkr_loan := loan,
          funding_income := fund_income, interest_cost := hourly_interest,
          funding_apr := row.funding * 24 * 365 * 100,
          net_spread_apr :=
            (fund_income - hourly_interest) * 8760 / (if pv > 0 then pv else 1) * 100,
          breakeven_funding := if pv > 0 then hourly_interest / pv else 0,
          fail_reason := none }
      if e2 ≤ 0 then .stopped rec_row
      else .continued rec_row e2 (tradeState s total_equity shares row.price).2

/-- The `for` loop of `FundingStrategy.run` with its early `break`s. -/
def runAux (s : FundingStrategy) (total_equity shares : ℚ) : List Row → List ResRow
  | [] => []
  | row :: rest =>
    match step s total_equity shares row with
    | .failed r => [r]
    | .stopped r => [r]
    | .continued r e sh => r :: runAux s e sh rest

/-- `FundingStrategy.run`: state initialised to
`total_equity = self.capital`, `shares = 0.0`; an empty input returns an
empty table. -/
def FundingStrategy.run (s : FundingStrategy) (df : List Row) : List ResRow :=
  runAux s s.capital 0 df

/-! ### Metrics Summarizer (`FundingStrategy.get_metrics`) -/

/-- pandas `Series.mean()`: sum divided by length (`0/0 = 0` for the empty
series, never hit by the guarded caller). -/
def listMean (l : List ℚ) : ℚ := l.sum / l.length

/-- pandas `Series.pct_change().fillna(0)`: first entry `0` (the filled
NaN), then `(cur - prev) / prev` pairwise. -/
def pctChange : List ℚ → List ℚ
  | [] => []
  | e :: rest => 0 :: List.zipWith (fun prev cur => (cur - prev) / prev) (e :: rest) rest

/-- Helper for pandas `Series.cummax()`: running maximum. -/
def cummaxAux (m : ℚ) : List ℚ → List ℚ
  | [] => []
  | e :: rest => max m e :: cummaxAux (max m e) rest

/-- pandas `Series.cummax()`. -/
def cummax : List ℚ → List ℚ
  | [] => []
  | e :: rest => e :: cummaxAux e rest

/-- `(df['total_equity'] - peak) / peak` where `peak` is the running max. -/
def drawdowns (l : List ℚ) : List ℚ :=
  List.zipWith (fun e p => (e - p) / p) l (cummax l)

/-- pandas `Series.std()` (sample standard deviation, `ddof = 1`), over `ℝ`
because of the square root. -/
noncomputable def listStd (l : List ℚ) : ℝ :=
  Real.sqrt ((l.map fun x => ((x : ℝ) - (listMean l : ℝ)) ^ 2).sum / (l.length - 1))

/-- The record returned by `FundingStrategy.get_metrics`.  `CAGR` and
`Sharpe` involve a real exponent / square root, hence `ℝ`; the remaining
fields stay exact. -/
structure Metrics where
  CAGR : ℝ
  Sharpe : ℝ
  MaxDD : ℚ
  Final : ℚ

/-- The body of `FundingStrategy.get_metrics` past the length guard.
`final`/`days` read the last and first rows (`iloc[-1]`, `iloc[0]`); the
Python float power `**` is modelled by `Real.rpow`. -/
noncomputable def summarizeMetrics (s : FundingStrategy) (df : List ResRow) : Metrics :=
  let final := (df.getLast?.getD default).total_equity
  let days : ℚ := ((df.getLast?.getD default).datetime - df.headI.datetime) / 86400
  let equity_series := df.map ResRow.total_equity
  let hourly_ret := pctChange equity_series
  { CAGR := Real.rpow ((final : ℝ) / (s.capital : ℝ)) (365 / max 1 (days : ℝ)) - 1,
    Sharpe :=
      if 0 < listStd hourly_ret then
        ((listMean hourly_ret : ℚ) : ℝ) / listStd hourly_ret * Real.sqrt 8760
      else 0,
    MaxDD := ((drawdowns equity_series).min?).getD 0,
    Final := final }

/-- `FundingStrategy.get_metrics`: `None` when `df.empty or len(df) < 24`
(the emptiness test is subsumed by the length test). -/
noncomputable def FundingStrategy.get_metrics (s : FundingStrategy) (df : List ResRow) :
    Option Metrics :=
  if df.length < 24 then none else some (summarizeMetrics s df)

/-! ### Grid Search Driver (`OptimizationEngine.run_grid_search`) -/

/-- `np.arange(1.0, 5.5, 0.5)` — the leverage axis of the grid. -/
def lev_range : List ℚ := [1, 3/2, 2, 5/2, 3, 7/2, 4, 9/2, 5]

/-- `np.arange(0.10, 0.60, 0.10)` — the capital-split axis of the grid
(exact decimals; the floats only differ by representation error). -/
def split_range : List ℚ := [1/10, 2/10, 3/10, 4/10, 5/10]

/-- The strategy instantiated by
`FundingStrategy(self.capital, lev, split, self.benchmark_rate)` inside
`OptimizationEngine.run_grid_search`.  The arguments are positional, and
`FundingStrategy.__init__`'s signature is
`(capital, hl_split_pct, benchmark_rate, safety_factor)`, so `lev` lands
in `hl_split_pct`, `split` in `benchmark_rate` and the driver's benchmark
rate in `safety_factor`. -/
def gridCellStrategy (capital benchmark_rate lev split : ℚ) : FundingStrategy :=
  { capital := capital, hl_split_pct := lev, benchmark_rate := split,
    safety_factor := benchmark_rate }

/-- One output row of the grid search. -/
structure GridRow where
  Leverage : ℚ
  Split : ℚ
  APR : ℚ
  Safe : Bool
  Max_HL_Lev : ℚ
  Max_IBKR_Lev : ℚ
deriving DecidableEq, Inhabited

/-- The data recorded on the success path of a grid cell (metrics present,
peak per-leg stress computed).  The numeric payload of a cell is kept
abstract (C7 quantifies over every possible per-cell outcome). -/
structure CellOutcome where
  cagr : ℚ
  is_safe : Bool
  max_hl : ℚ
  max_ibkr : ℚ
deriving DecidableEq

/-- One `try/except` iteration of `run_grid_search`: the whole simulation
of a cell is abstracted as `simulate lev split`, with `none` standing for
"raised an unexpected error or `get_metrics` returned `None`" (the code's
`raise ValueError(\"Simulation metrics failed\")` lands in the same
`except` branch).  A `some` outcome appends the success dict
(`APR = CAGR * 100`); a `none` outcome appends the sentinel
`{APR: 0.0, Safe: False, Max_*: 999.0}` dict. -/
def gridCell (simulate : ℚ → ℚ → Option CellOutcome) (lev split : ℚ) : GridRow :=
  match simulate lev split with
  | some m =>
    { Leverage := lev, Split := split, APR := m.cagr * 100, Safe := m.is_safe,
      Max_HL_Lev := m.max_hl, Max_IBKR_Lev := m.max_ibkr }
  | none =>
    { Leverage := lev, Split := split, APR := 0, Safe := false,
      Max_HL_Lev := 999, Max_IBKR_Lev := 999 }

/-- `OptimizationEngine.run_grid_search`: the nested `for lev / for split`
loops appending one row per combination. -/
def run_grid_search (simulate : ℚ → ℚ → Option CellOutcome) : List GridRow :=
  lev_range.flatMap fun lev => split_range.map fun split => gridCell simulate lev split

/-! ### Cross-Asset Ranker (`AssetRanker.run_ranking`) -/

/-- One result row of the ranker (`{"Symbol", "Avg Net APR", "Sample Hours"}`). -/
structure RankRow where
  Symbol : String
  avg_net_apr : ℚ
  sample_hours : ℕ
deriving DecidableEq, Inhabited

/-- The dict appended for a kept asset:
`net_apr = (df['funding'].mean() * 24 * 365 - benchmark_rate) * 100`.
`df` is the asset's filtered hourly funding series. -/
def mkRankRow (benchmark_rate : ℚ) (ticker : String) (df : List ℚ) : RankRow :=
  { Symbol := ticker, avg_net_apr := (listMean df * 24 * 365 - benchmark_rate) * 100,
    sample_hours := df.length }

/-- The ranker loop body: per ticker, fetch-and-filter (abstracted as the
total function `fetch`, exceptions are out of scope of the claims), skip
with a recorded reason when empty or when `len(df) <= 24`, else append the
scored row. -/
def rankLoop (benchmark_rate : ℚ) (fetch : String → List ℚ) :
    List String → List RankRow × List String
  | [] => ([], [])
  | ticker :: rest =>
    let df := fetch ticker
    let acc := rankLoop benchmark_rate fetch rest
    if df.isEmpty then
      (acc.1, (ticker ++ ": Empty after filtering") :: acc.2)
    else if df.length ≤ 24 then
      (acc.1, (ticker ++ ": Only " ++ toString df.length ++ " hours (need >24)") :: acc.2)
    else
      (mkRankRow benchmark_rate ticker df :: acc.1, acc.2)

/-- The descending-APR order used by
`sort_values(by="Avg Net APR", ascending=False)`. -/
def rank_ge (a b : RankRow) : Prop := b.avg_net_apr ≤ a.avg_net_apr

instance : DecidableRel rank_ge := fun a b =>
  inferInstanceAs (Decidable (b.avg_net_apr ≤ a.avg_net_apr))

instance : IsTotal RankRow rank_ge := ⟨fun a b => le_total b.avg_net_apr a.avg_net_apr⟩

instance : IsTrans RankRow rank_ge := ⟨fun _ _ _ h h' => le_trans h' h⟩

/-- `AssetRanker.run_ranking`, returning the ranked table together with
the side-channel skip-reason list.  The sort is modelled with insertion
sort; only the resulting descending order matters (pandas' quicksort may
permute ties differently). -/
def run_ranking (benchmark_rate : ℚ) (fetch : String → List ℚ)
    (ticker_list : List String) : List RankRow × List String :=
  let acc := rankLoop benchmark_rate fetch ticker_list
  (List.insertionSort rank_ge acc.1, acc.2)

/-! ### Closed form of the tier schedule (for monotonicity / limits) -/

/-- Branch-free closed form of the tier schedule, agreeing with
`calcTieredInterest` on every positive loan amount. -/
def tieredClosed {α : Type} [LinearOrderedField α] (benchmark_rate loan_amount : α) : α :=
  (min loan_amount 100000 * (benchmark_rate + 15 / 1000) +
      min (max (loan_amount - 100000) 0) 900000 * (benchmark_rate + 10 / 1000) +
      max (loan_amount - 1000000) 0 * (benchmark_rate + 75 / 10000)) / 365 / 24

/-! ### Concrete fixtures used by counterexamples and witnesses -/

/-- A legitimate dashboard-style configuration: $1M capital, 30 % routed
to Hyperliquid, benchmark rate 0, safety factor 1. -/
def cfgMaint : FundingStrategy :=
  { capital := 1000000, hl_split_pct := 3/10, benchmark_rate := 0, safety_factor := 1 }

/-- Hour 1: establishes the position at price 100 with zero funding. -/
def rowM1 : Row := { datetime := 0, price := 100, funding := 0 }

/-- Hour 2: price drifts +8 % (below the 10 % rebalance tolerance) and the
hour's funding is −15 %, wiping out most of the equity. -/
def rowM2 : Row := { datetime := 3600, price := 108, funding := -3/20 }

/-- A configuration whose safety factor 2 makes the pre-trade Hyperliquid
leverage check fire on the very first hour. -/
def cfgOverLev : FundingStrategy :=
  { capital := 1000000, hl_split_pct := 1/10, benchmark_rate := 0, safety_factor := 2 }

/-- A small benign configuration for witnesses. -/
def cfgSmall : FundingStrategy :=
  { capital := 100, hl_split_pct := 1/2, benchmark_rate := 0, safety_factor := 1/2 }

/-- Benign input hour at price 1, zero funding. -/
def rowS1 : Row := { datetime := 0, price := 1, funding := 0 }

/-- A second benign input hour. -/
def rowS2 : Row := { datetime := 3600, price := 1, funding := 0 }

/-- A 24-row constant-equity result table (witness input for the Metrics
Summarizer). -/
def df24 : List ResRow :=
  (List.range 24).map fun (i : ℕ) =>
    { datetime := (i : ℚ) * 3600, price := 1, total_equity := 1, position_usd := 0,
      hl_equity := 0, ibkr_equity := 0, ibkr_loan := 0, funding_income := 0,
      interest_cost := 0, funding_apr := 0, net_spread_apr := 0,
      breakeven_funding := 0, fail_reason := none }

/-! ## Helper lemmas about one loop iteration -/

/-- A failure row always carries a reason and zero equity. -/
theorem step_failed_inv {s : FundingStrategy} {e sh : ℚ} {row : Row} {r : ResRow}
    (h : step s e sh row = .failed r) : r.total_equity = 0 ∧ r.fail_reason ≠ none := by
  simp only [step] at h
  split_ifs at h
  all_goals cases h
  all_goals simp [FundingStrategy._fail_row]

/-- A `stopped` outcome appends an ordinary row whose recorded equity is
non-positive. -/
theorem step_stopped_inv {s : FundingStrategy} {e sh : ℚ} {row : Row} {r : ResRow}
    (h : step s e sh row = .stopped r) : r.fail_reason = none ∧ r.total_equity ≤ 0 := by
  simp only [step] at h
  split_ifs at h with h1 h2 h3 h4 h5
  all_goals cases h
  all_goals exact ⟨rfl, by assumption⟩

/-- A `continued` outcome appends an ordinary row recording the (positive)
post-PnL equity that the next hour starts from. -/
theorem step_continued_inv {s : FundingStrategy} {e sh e' sh' : ℚ} {row : Row} {r : ResRow}
    (h : step s e sh row = .continued r e' sh') :
    r.fail_reason = none ∧ r.total_equity = e' ∧ 0 < e' := by
  simp only [step] at h
  split_ifs at h with h1 h2 h3 h4 h5
  all_goals cases h
  all_goals exact ⟨rfl, rfl, lt_of_not_le (by assumption)⟩

/-! ## Helper lemmas about the whole loop -/

/-- The loop appends at most one row per input row. -/
theorem runAux_length_le (s : FundingStrategy) (rows : List Row) :
    ∀ e sh, (runAux s e sh rows).length ≤ rows.length := by
  induction rows with
  | nil => intro e sh; simp [runAux]
  | cons row rest ih =>
    intro e sh
    cases hstep : step s e sh row with
    | failed r => simp [runAux, hstep]
    | stopped r => simp [runAux, hstep]
    | continued r e' sh' =>
      simp only [runAux, hstep, List.length_cons]
      exact Nat.succ_le_succ (ih e' sh')

/-- Every output row except possibly the final one is an ordinary row with
positive recorded equity (failure rows and ruin rows terminate the loop,
so they can only be last). -/
theorem runAux_dropLast_ok (s : FundingStrategy) (rows : List Row) :
    ∀ e sh, ∀ r ∈ (runAux s e sh rows).dropLast,
      r.fail_reason = none ∧ 0 < r.total_equity := by
  induction rows with
  | nil => intro e sh r hr; simp [runAux] at hr
  | cons row rest ih =>
    intro e sh r hr
    cases hstep : step s e sh row with
    | failed r' => simp [runAux, hstep] at hr
    | stopped r' => simp [runAux, hstep] at hr
    | continued r' e' sh' =>
      simp only [runAux, hstep] at hr
      by_cases hnil : runAux s e' sh' rest = []
      · rw [hnil] at hr; simp at hr
      · rw [List.dropLast_cons_of_ne_nil hnil] at hr
        rcases List.mem_cons.mp hr with rfl | hr'
        · obtain ⟨hnone, heq, hpos⟩ := step_continued_inv hstep
          exact ⟨hnone, heq ▸ hpos⟩
        · exact ih e' sh' r hr'

/-- If every appended row is failure-free with positive equity, the loop
never broke early, so it consumed the whole input. -/
theorem runAux_full_of_clean (s : FundingStrategy) (rows : List Row) :
    ∀ e sh, (∀ r ∈ runAux s e sh rows, r.fail_reason = none ∧ 0 < r.total_equity) →
      (runAux s e sh rows).length = rows.length := by
  induction rows with
  | nil => intro e sh _; simp [runAux]
  | cons row rest ih =>
    intro e sh hclean
    cases hstep : step s e sh row with
    | failed r' =>
      exact absurd (hclean r' (by simp [runAux, hstep])).1 (step_failed_inv hstep).2
    | stopped r' =>
      exact absurd (hclean r' (by simp [runAux, hstep])).2
        (not_lt.mpr (step_stopped_inv hstep).2)
    | continued r' e' sh' =>
      simp only [runAux, hstep, List.length_cons]
      have hsub : ∀ r ∈ runAux s e' sh' rest, r.fail_reason = none ∧ 0 < r.total_equity :=
        fun r hr => hclean r (by simp [runAux, hstep, hr])
      rw [ih e' sh' hsub]

/-! ## Helper lemmas about the financing cost model -/

/-- On positive loan amounts the branchy tier computation agrees with its
branch-free min/max closed form. -/
theorem calcTieredInterest_pos_eq {α : Type} [LinearOrderedField α]
    (b x : α) (hx : 0 < x) : calcTieredInterest b x = tieredClosed b x := by
  simp only [calcTieredInterest, tieredClosed]
  rw [if_neg (not_le.mpr hx)]
  rcases le_or_lt x 100000 with h1 | h1
  · rw [if_neg (not_lt.mpr h1), if_neg (not_lt.mpr (h1.trans (by norm_num))),
      max_eq_right (by linarith : x - 100000 ≤ 0),
      min_eq_left (by norm_num : (0 : α) ≤ 900000),
      max_eq_right (by linarith : x - 1000000 ≤ 0)]
    try ring
  · rcases le_or_lt x 1000000 with h2 | h2
    · rw [if_pos h1, if_neg (not_lt.mpr h2), min_eq_right h1.le,
        max_eq_left (by linarith : (0 : α) ≤ x - 100000),
        min_eq_left (by linarith : x - 100000 ≤ 900000),
        max_eq_right (by linarith : x - 1000000 ≤ 0)]
      try ring
    · rw [if_pos h1, if_pos h2, min_eq_right h1.le,
        max_eq_left (by linarith : (0 : α) ≤ x - 100000),
        min_eq_right (by linarith : (900000 : α) ≤ x - 100000),
        max_eq_left (by linarith : (0 : α) ≤ x - 1000000)]
      try ring

/-- With a non-negative benchmark rate the hourly charge is non-negative. -/
theorem calcTieredInterest_nonneg (b x : ℚ) (hb : 0 ≤ b) :
    0 ≤ calcTieredInterest b x := by
  rcases le_or_lt x 0 with h | h
  · rw [calcTieredInterest, if_pos h]
  · rw [calcTieredInterest_pos_eq b x h, tieredClosed]
    have t1 : (0 : ℚ) ≤ min x 100000 := le_min h.le (by norm_num)
    have t2 : (0 : ℚ) ≤ min (max (x - 100000) 0) 900000 :=
      le_min (le_max_right _ _) (by norm_num)
    have t3 : (0 : ℚ) ≤ max (x - 1000000) 0 := le_max_right _ _
    have hsum : (0 : ℚ) ≤
        min x 100000 * (b + 15 / 1000) +
          min (max (x - 100000) 0) 900000 * (b + 10 / 1000) +
          max (x - 1000000) 0 * (b + 75 / 10000) := by
      apply add_nonneg (add_nonneg _ _) _
      · exact mul_nonneg t1 (by linarith)
      · exact mul_nonneg t2 (by linarith)
      · exact mul_nonneg t3 (by linarith)
    exact div_nonneg (div_nonneg hsum (by norm_num)) (by norm_num)

/-- With a non-negative benchmark rate the hourly charge is monotonically
non-decreasing in the loan amount. -/
theorem calcTieredInterest_mono (b : ℚ) (hb : 0 ≤ b) {x y : ℚ} (hxy : x ≤ y) :
    calcTieredInterest b x ≤ calcTieredInterest b y := by
  rcases le_or_lt x 0 with hx | hx
  · have hx0 : calcTieredInterest b x = 0 := by rw [calcTieredInterest, if_pos hx]
    rw [hx0]
    exact calcTieredInterest_nonneg b y hb
  · have hy : 0 < y := lt_of_lt_of_le hx hxy
    rw [calcTieredInterest_pos_eq b x hx, calcTieredInterest_pos_eq b y hy,
      tieredClosed, tieredClosed]
    have r1 : (0 : ℚ) ≤ b + 15 / 1000 := by linarith
    have r2 : (0 : ℚ) ≤ b + 10 / 1000 := by linarith
    have r3 : (0 : ℚ) ≤ b + 75 / 10000 := by linarith
    have m1 : min x 100000 ≤ min y 100000 := min_le_min hxy le_rfl
    have m2 : min (max (x - 100000) 0) 900000 ≤ min (max (y - 100000) 0) 900000 :=
      min_le_min (max_le_max (by linarith) le_rfl) le_rfl
    have m3 : max (x - 1000000) 0 ≤ max (y - 1000000) 0 :=
      max_le_max (by linarith) le_rfl
    have hnum :
        min x 100000 * (b + 15 / 1000) +
            min (max (x - 100000) 0) 900000 * (b + 10 / 1000) +
            max (x - 1000000) 0 * (b + 75 / 10000) ≤
          min y 100000 * (b + 15 / 1000) +
            min (max (y - 100000) 0) 900000 * (b + 10 / 1000) +
            max (y - 1000000) 0 * (b + 75 / 10000) := by
      apply add_le_add (add_le_add _ _) _
      · exact mul_le_mul_of_nonneg_right m1 r1
      · exact mul_le_mul_of_nonneg_right m2 r2
      · exact mul_le_mul_of_nonneg_right m3 r3
    exact (div_le_div_iff_of_pos_right (by norm_num)).mpr ((div_le_div_iff_of_pos_right (by norm_num)).mpr hnum)

/-- The closed tier form is (globally) continuous over `ℝ`. -/
theorem tieredClosed_continuous (c : ℝ) : Continuous (tieredClosed c) := by
  have h1 : Continuous fun x : ℝ => min x 100000 * (c + 15 / 1000) :=
    (continuous_id.min continuous_const).mul continuous_const
  have h2 : Continuous fun x : ℝ =>
      min (max (x - 100000) 0) 900000 * (c + 10 / 1000) :=
    ((((continuous_id.sub continuous_const).max continuous_const).min
      continuous_const).mul continuous_const)
  have h3 : Continuous fun x : ℝ => max (x - 1000000) 0 * (c + 75 / 10000) :=
    (((continuous_id.sub continuous_const).max continuous_const).mul continuous_const)
  exact (((h1.add h2).add h3).div_const 365).div_const 24

/-- The tier computation is continuous at every positive point; in
particular at both tier boundaries. -/
theorem calcTieredInterest_continuousAt (c : ℝ) {x₀ : ℝ} (hx₀ : 0 < x₀) :
    ContinuousAt (calcTieredInterest c) x₀ := by
  have hmem : Set.Ioi (0 : ℝ) ∈ nhds x₀ := Ioi_mem_nhds hx₀
  have hev : calcTieredInterest c =ᶠ[nhds x₀] tieredClosed c :=
    Filter.eventuallyEq_of_mem hmem fun x hx => calcTieredInterest_pos_eq c x hx
  exact ((tieredClosed_continuous c).continuousAt).congr hev.symm

/-! ## Claim C4 -/

/-- C4: the financing cost model returns 0 for every `loan_amount ≤ 0`,
and otherwise charges the cumulative progressive three-tier annual rate
divided by 365×24; in particular `hourly_interest(50_000, 0.05)` equals
`50_000 × 0.065 / 8760` and `hourly_interest(150_000, 0.05)` equals
`(100_000×0.065 + 50_000×0.06)/8760`. -/
theorem C4_tiered_interest_contract :
    (∀ b x : ℚ, x ≤ 0 → calcTieredInterest b x = 0) ∧
    calcTieredInterest (5/100 : ℚ) 50000 = 50000 * (65/1000) / 8760 ∧
    calcTieredInterest (5/100 : ℚ) 150000 =
      (100000 * (65/1000) + 50000 * (6/100)) / 8760 := by
  refine ⟨fun b x hx => by rw [calcTieredInterest, if_pos hx], ?_, ?_⟩ <;>
    norm_num [calcTieredInterest]

/-- C4 witness: the zero-return branch evaluated at `loan_amount = -1`. -/
theorem C4_tiered_interest_contract_witness :
    (-1 : ℚ) ≤ 0 ∧ calcTieredInterest (5/100 : ℚ) (-1) = 0 :=
  ⟨by norm_num, C4_tiered_interest_contract.1 (5/100) (-1) (by norm_num)⟩

/-! ## Claim C6 -/

/-- C6: for every benchmark rate ≥ 0 the financing cost model is
monotonically non-decreasing in the loan amount, and (read over `ℝ`) the
total hourly charge is continuous at the tier boundaries 100 000 and
1 000 000 — no jump in charged dollars, only in marginal rate. -/
theorem C6_tiered_interest_monotone_continuous :
    (∀ b : ℚ, 0 ≤ b → ∀ x y : ℚ, x ≤ y →
      calcTieredInterest b x ≤ calcTieredInterest b y) ∧
    (∀ c : ℝ, 0 ≤ c →
      ContinuousAt (calcTieredInterest c) (100000 : ℝ) ∧
      ContinuousAt (calcTieredInterest c) (1000000 : ℝ)) := by
  constructor
  · exact fun b hb x y hxy => calcTieredInterest_mono b hb hxy
  · exact fun c _ =>
      ⟨calcTieredInterest_continuousAt c (by norm_num),
        calcTieredInterest_continuousAt c (by norm_num)⟩

/-- C6 witness: instantiated at the benchmark rate 0.0533. -/
theorem C6_tiered_interest_monotone_continuous_witness :
    (0 : ℚ) ≤ 533/10000 ∧
    calcTieredInterest (533/10000 : ℚ) 50000 ≤ calcTieredInterest (533/10000 : ℚ) 150000 ∧
    ContinuousAt (calcTieredInterest (533/10000 : ℝ)) (100000 : ℝ) :=
  ⟨by norm_num,
    C6_tiered_interest_monotone_continuous.1 (533/10000) (by norm_num) 50000 150000
      (by norm_num),
    (C6_tiered_interest_monotone_continuous.2 (533/10000) (by norm_num)).1⟩

/-! ## Pre-trade check helpers -/

/-- With a genuine split, a safety factor in `(0, 1]` and positive entering
equity, the proposed target notional respects both venue caps, so neither
pre-trade condition holds. -/
theorem pretrade_checks_pass (s : FundingStrategy) (e : ℚ)
    (h1 : 0 < s.hl_split_pct) (h2 : s.hl_split_pct < 1)
    (h3 : 0 < s.safety_factor) (h4 : s.safety_factor ≤ 1) (he : 0 < e) :
    ¬(ibkr_allocation s e > 0 ∧
        target_notional s e / ibkr_allocation s e > FundingStrategy.ibkr_max_lev) ∧
    ¬(hl_allocation s e > 0 ∧
        target_notional s e / hl_allocation s e > FundingStrategy.hl_max_lev) := by
  have hhl : 0 < hl_allocation s e := mul_pos he h1
  have hibkr : 0 < ibkr_allocation s e := mul_pos he (by linarith)
  have hmin : 0 ≤ FundingStrategy._calculate_max_safe_notional
      (hl_allocation s e) (ibkr_allocation s e) := by
    apply le_min
    · exact mul_nonneg hhl.le (by norm_num [FundingStrategy.hl_max_lev])
    · exact mul_nonneg hibkr.le (by norm_num [FundingStrategy.ibkr_max_lev])
  have ht_ibkr : target_notional s e ≤ ibkr_allocation s e * FundingStrategy.ibkr_max_lev := by
    calc target_notional s e
        ≤ FundingStrategy._calculate_max_safe_notional
            (hl_allocation s e) (ibkr_allocation s e) * 1 := by
          exact mul_le_mul_of_nonneg_left h4 hmin
      _ = FundingStrategy._calculate_max_safe_notional
            (hl_allocation s e) (ibkr_allocation s e) := mul_one _
      _ ≤ ibkr_allocation s e * FundingStrategy.ibkr_max_lev := min_le_right _ _
  have ht_hl : target_notional s e ≤ hl_allocation s e * FundingStrategy.hl_max_lev := by
    calc target_notional s e
        ≤ FundingStrategy._calculate_max_safe_notional
            (hl_allocation s e) (ibkr_allocation s e) * 1 := by
          exact mul_le_mul_of_nonneg_left h4 hmin
      _ = FundingStrategy._calculate_max_safe_notional
            (hl_allocation s e) (ibkr_allocation s e) := mul_one _
      _ ≤ hl_allocation s e * FundingStrategy.hl_max_lev := min_le_left _ _
  constructor
  · rintro ⟨_, hgt⟩
    have hlt := (lt_div_iff hibkr).mp hgt
    nlinarith [ht_ibkr]
  · rintro ⟨_, hgt⟩
    have hlt := (lt_div_iff hhl).mp hgt
    nlinarith [ht_hl]

/-- When both pre-trade conditions fail, any failure row emitted by the
iteration is one of the two maintenance failures. -/
theorem step_failed_reason_maint {s : FundingStrategy} {e sh : ℚ} {row : Row} {r : ResRow}
    (hp1 : ¬(ibkr_allocation s e > 0 ∧
        target_notional s e / ibkr_allocation s e > FundingStrategy.ibkr_max_lev))
    (hp2 : ¬(hl_allocation s e > 0 ∧
        target_notional s e / hl_allocation s e > FundingStrategy.hl_max_lev))
    (h : step s e sh row = .failed r) :
    r.fail_reason = some "HL Liquidation (Equity < 5%)" ∨
    r.fail_reason = some "IBKR Margin Call (Equity < 10%)" := by
  simp only [step] at h
  rw [if_neg hp1, if_neg hp2] at h
  split_ifs at h
  all_goals cases h
  all_goals simp [FundingStrategy._fail_row]

/-- `headI` of a non-empty list is a member. -/
theorem headI_mem {α : Type} [Inhabited α] {l : List α} (h : l ≠ []) : l.headI ∈ l := by
  cases l with
  | nil => exact absurd rfl h
  | cons a t => exact List.mem_cons_self a t

/-! ## Claim C3 -/

/-- C3 (amended): the result table never has more rows than the input; a
failure row, once appended, is the final row; and if every appended row is
failure-free with positive equity the table is full length.  (The original
"equality iff no failure" is refuted by `C3_counterexample`: a failure at
the final input row also yields a full-length table.) -/
theorem C3_result_length (s : FundingStrategy) (df : List Row) :
    (s.run df).length ≤ df.length ∧
    (∀ r ∈ (s.run df).dropLast, r.fail_reason = none) ∧
    ((∀ r ∈ s.run df, r.fail_reason = none ∧ 0 < r.total_equity) →
      (s.run df).length = df.length) :=
  ⟨runAux_length_le s df s.capital 0,
    fun r hr => (runAux_dropLast_ok s df s.capital 0 r hr).1,
    runAux_full_of_clean s df s.capital 0⟩

/-- C3 counterexample: with safety factor 2 and a 10 % split the very
first hour fails the Hyperliquid pre-trade check, so the single-row input
yields a single (failure) row: the table lengths are equal although a
failure occurred, refuting "equality holds iff no failure occurred". -/
theorem C3_counterexample :
    (FundingStrategy.run cfgOverLev [rowM1]).length = ([rowM1] : List Row).length ∧
    ((FundingStrategy.run cfgOverLev [rowM1]).headI).fail_reason =
      some "HL Max Leverage Exceeded (>20x)" := by
  norm_num [FundingStrategy.run, runAux, step, tradeState, position_val, ibkr_loan_amt,
    post_equity, hl_allocation, ibkr_allocation, target_notional,
    FundingStrategy._calculate_max_safe_notional, FundingStrategy._calc_tiered_interest,
    calcTieredInterest, FundingStrategy._fail_row, FundingStrategy.cost_bps,
    FundingStrategy.ibkr_max_lev, FundingStrategy.hl_max_lev, FundingStrategy.hl_maint_margin,
    cfgOverLev, rowM1, abs, inf_eq_min, sup_eq_max, min_def, max_def]

/-- C3 witness: a benign two-hour run is clean, so the table is full
length. -/
theorem C3_result_length_witness :
    (FundingStrategy.run cfgSmall [rowS1, rowS2]).length =
      ([rowS1, rowS2] : List Row).length := by
  apply (C3_result_length cfgSmall [rowS1, rowS2]).2.2
  intro r hr
  norm_num [FundingStrategy.run, runAux, step, tradeState, position_val, ibkr_loan_amt,
    post_equity, hl_allocation, ibkr_allocation, target_notional,
    FundingStrategy._calculate_max_safe_notional, FundingStrategy._calc_tiered_interest,
    calcTieredInterest, FundingStrategy._fail_row, FundingStrategy.cost_bps,
    FundingStrategy.ibkr_max_lev, FundingStrategy.hl_max_lev, FundingStrategy.hl_maint_margin,
    cfgSmall, rowS1, rowS2, abs, inf_eq_min, sup_eq_max, min_def, max_def] at hr
  rcases hr with rfl | rfl <;> norm_num

/-! ## Claim C9 -/

/-- C9: once `total_equity` is ≤ 0 after an hour's PnL update no further
rows are appended, so every row of the result table before the last one
has positive total equity. -/
theorem C9_positive_before_last (s : FundingStrategy) (df : List Row) :
    ∀ r ∈ (s.run df).dropLast, 0 < r.total_equity :=
  fun r hr => (runAux_dropLast_ok s df s.capital 0 r hr).2

/-- C9 witness: the first row of a benign two-hour run has positive
equity. -/
theorem C9_positive_before_last_witness :
    0 < ((FundingStrategy.run cfgSmall [rowS1, rowS2]).dropLast.headI).total_equity := by
  apply C9_positive_before_last cfgSmall [rowS1, rowS2]
  apply headI_mem
  norm_num [FundingStrategy.run, runAux, step, tradeState, position_val, ibkr_loan_amt,
    post_equity, hl_allocation, ibkr_allocation, target_notional,
    FundingStrategy._calculate_max_safe_notional, FundingStrategy._calc_tiered_interest,
    calcTieredInterest, FundingStrategy._fail_row, FundingStrategy.cost_bps,
    FundingStrategy.ibkr_max_lev, FundingStrategy.hl_max_lev, FundingStrategy.hl_maint_margin,
    cfgSmall, rowS1, rowS2, abs, inf_eq_min, sup_eq_max, min_def, max_def,
    List.dropLast]

/-! ## Claim C10 -/

/-- C10: with a split strictly between 0 and 1, a safety factor in
`(0, 1]` and positive initial capital, every hour is entered with positive
equity and the proposed notional respects both venue caps, so the two
pre-trade failure rows never occur in any run. -/
theorem C10_pretrade_unreachable (s : FundingStrategy) (df : List Row)
    (h1 : 0 < s.hl_split_pct) (h2 : s.hl_split_pct < 1)
    (h3 : 0 < s.safety_factor) (h4 : s.safety_factor ≤ 1) (hcap : 0 < s.capital) :
    ∀ r ∈ s.run df,
      r.fail_reason ≠ some "IBKR Margin Call (Lev > 6.6x)" ∧
      r.fail_reason ≠ some "HL Max Leverage Exceeded (>20x)" := by
  suffices haux : ∀ (rows : List Row) (e sh : ℚ), 0 < e → ∀ r ∈ runAux s e sh rows,
      r.fail_reason ≠ some "IBKR Margin Call (Lev > 6.6x)" ∧
      r.fail_reason ≠ some "HL Max Leverage Exceeded (>20x)" by
    exact haux df s.capital 0 hcap
  intro rows
  induction rows with
  | nil => intro e sh he r hr; simp [runAux] at hr
  | cons row rest ih =>
    intro e sh he r hr
    obtain ⟨hp1, hp2⟩ := pretrade_checks_pass s e h1 h2 h3 h4 he
    cases hstep : step s e sh row with
    | failed r' =>
      simp only [runAux, hstep, List.mem_singleton] at hr
      subst hr
      rcases step_failed_reason_maint hp1 hp2 hstep with hm | hm <;> simp [hm]
    | stopped r' =>
      simp only [runAux, hstep, List.mem_singleton] at hr
      subst hr
      simp [(step_stopped_inv hstep).1]
    | continued r' e' sh' =>
      simp only [runAux, hstep] at hr
      rcases List.mem_cons.mp hr with rfl | hr'
      · simp [(step_continued_inv hstep).1]
      · exact ih e' sh' (step_continued_inv hstep).2.2 r hr'

/-- C10 witness: a benign run under the dashboard configuration contains
no pre-trade failure row. -/
theorem C10_pretrade_unreachable_witness :
    ((FundingStrategy.run cfgMaint [rowS1]).headI).fail_reason ≠
        some "IBKR Margin Call (Lev > 6.6x)" ∧
    ((FundingStrategy.run cfgMaint [rowS1]).headI).fail_reason ≠
        some "HL Max Leverage Exceeded (>20x)" := by
  apply C10_pretrade_unreachable cfgMaint [rowS1] (by norm_num [cfgMaint])
    (by norm_num [cfgMaint]) (by norm_num [cfgMaint]) (by norm_num [cfgMaint])
    (by norm_num [cfgMaint])
  apply headI_mem
  norm_num [FundingStrategy.run, runAux, step, tradeState, position_val, ibkr_loan_amt,
    post_equity, hl_allocation, ibkr_allocation, target_notional,
    FundingStrategy._calculate_max_safe_notional, FundingStrategy._calc_tiered_interest,
    calcTieredInterest, FundingStrategy._fail_row, FundingStrategy.cost_bps,
    FundingStrategy.ibkr_max_lev, FundingStrategy.hl_max_lev, FundingStrategy.hl_maint_margin,
    cfgMaint, rowS1, abs, inf_eq_min, sup_eq_max, min_def, max_def]

/-! ## Claim C1 -/

/-- C1 (amended): for an hour with positive position notional (and passing
pre-trade checks), the post-PnL maintenance check uses the venue
allocations computed from the *start-of-hour* equity — not equities
reflecting the hour's funding income and interest: the run fails with a
failure row exactly when start-of-hour futures-venue allocation ÷ notional
is below 5 % or start-of-hour spot-venue allocation ÷ notional is below
10 %, and a failure row always records zero equity. -/
theorem C1_maintenance_check (s : FundingStrategy) (e sh : ℚ) (row : Row)
    (hp1 : ¬(ibkr_allocation s e > 0 ∧
        target_notional s e / ibkr_allocation s e > FundingStrategy.ibkr_max_lev))
    (hp2 : ¬(hl_allocation s e > 0 ∧
        target_notional s e / hl_allocation s e > FundingStrategy.hl_max_lev))
    (hpos : 0 < position_val s e sh row.price) :
    (((step s e sh row).row.fail_reason = some "HL Liquidation (Equity < 5%)" ∨
        (step s e sh row).row.fail_reason = some "IBKR Margin Call (Equity < 10%)") ↔
      (hl_allocation s e / position_val s e sh row.price <
          FundingStrategy.hl_maint_margin ∨
        ibkr_allocation s e / position_val s e sh row.price < 10 / 100)) ∧
    ((step s e sh row).row.fail_reason ≠ none →
      (step s e sh row).row.total_equity = 0) := by
  constructor
  · simp only [step]
    rw [if_neg hp1, if_neg hp2]
    split_ifs with hc1 hc2 h3 h4
    · simp [StepOut.row, FundingStrategy._fail_row, hc1.2]
    · simp [StepOut.row, FundingStrategy._fail_row, hc2.2]
    all_goals
      have hn1 : ¬(hl_allocation s e / position_val s e sh row.price <
          FundingStrategy.hl_maint_margin) := fun hlt => hc1 ⟨hpos, hlt⟩
    all_goals
      have hn2 : ¬(ibkr_allocation s e / position_val s e sh row.price < 10 / 100) :=
        fun hlt => hc2 ⟨hpos, hlt⟩
    all_goals simp [StepOut.row, hn1, hn2]
  · intro hne
    cases hstep : step s e sh row with
    | failed r' => exact (step_failed_inv hstep).1
    | stopped r' => rw [hstep] at hne; exact absurd (step_stopped_inv hstep).1 hne
    | continued r' e' sh' => rw [hstep] at hne; exact absurd (step_continued_inv hstep).1 hne

/-- C1 counterexample: a run in which the final hour's post-PnL
futures-venue equity over notional is far below 5 % (the hour's funding
loss is already reflected in the recorded equity), yet the engine appends
an ordinary row — no zero-equity failure row — because the check divided
the start-of-hour allocation, not the post-update equity, by the
notional. -/
theorem C1_counterexample :
    (FundingStrategy.run cfgMaint [rowM1, rowM2]).map ResRow.fail_reason =
      [none, none] ∧
    0 < ((FundingStrategy.run cfgMaint [rowM1, rowM2]).getLast?.getD default).position_usd ∧
    ((FundingStrategy.run cfgMaint [rowM1, rowM2]).getLast?.getD default).total_equity *
        cfgMaint.hl_split_pct /
        ((FundingStrategy.run cfgMaint [rowM1, rowM2]).getLast?.getD default).position_usd <
      FundingStrategy.hl_maint_margin := by
  norm_num [FundingStrategy.run, runAux, step, tradeState, position_val, ibkr_loan_amt,
    post_equity, hl_allocation, ibkr_allocation, target_notional,
    FundingStrategy._calculate_max_safe_notional, FundingStrategy._calc_tiered_interest,
    calcTieredInterest, FundingStrategy._fail_row, FundingStrategy.cost_bps,
    FundingStrategy.ibkr_max_lev, FundingStrategy.hl_max_lev, FundingStrategy.hl_maint_margin,
    cfgMaint, rowM1, rowM2, abs, inf_eq_min, sup_eq_max, min_def, max_def]

/-- C1 witness: the amended maintenance-check characterisation evaluated
at the dashboard configuration entering the first hour. -/
theorem C1_maintenance_check_witness :
    0 < position_val cfgMaint 1000000 0 rowM1.price ∧
    (((step cfgMaint 1000000 0 rowM1).row.fail_reason =
          some "HL Liquidation (Equity < 5%)" ∨
        (step cfgMaint 1000000 0 rowM1).row.fail_reason =
          some "IBKR Margin Call (Equity < 10%)") ↔
      (hl_allocation cfgMaint 1000000 / position_val cfgMaint 1000000 0 rowM1.price <
          FundingStrategy.hl_maint_margin ∨
        ibkr_allocation cfgMaint 1000000 / position_val cfgMaint 1000000 0 rowM1.price <
          10 / 100)) := by
  have hp := pretrade_checks_pass cfgMaint 1000000 (by norm_num [cfgMaint])
    (by norm_num [cfgMaint]) (by norm_num [cfgMaint]) (by norm_num [cfgMaint])
    (by norm_num)
  have hpos : 0 < position_val cfgMaint 1000000 0 rowM1.price := by
    norm_num [position_val, tradeState, target_notional, hl_allocation, ibkr_allocation,
      FundingStrategy._calculate_max_safe_notional, FundingStrategy.cost_bps,
      FundingStrategy.ibkr_max_lev, FundingStrategy.hl_max_lev, cfgMaint, rowM1,
      abs, inf_eq_min, sup_eq_max, min_def, max_def]
  exact ⟨hpos, (C1_maintenance_check cfgMaint 1000000 0 rowM1 hp.1 hp.2 hpos).1⟩

/-! ## Claim C2 -/

/-- C2: evaluating the grid-search constructor call at the failing cell
`lev = 1.0, split = 0.10` (driver capital 1 000 000, benchmark 0.0533)
shows the positional mis-binding: the leverage axis value lands in
`hl_split_pct`, the split axis value in `benchmark_rate`, and the driver's
benchmark rate in `safety_factor`; in particular the capital-split
parameter does not receive the split value as the claim requires. -/
theorem C2_grid_constructor_binding :
    gridCellStrategy 1000000 (533/10000) 1 (1/10) =
      { capital := 1000000, hl_split_pct := 1, benchmark_rate := 1/10,
        safety_factor := 533/10000 } ∧
    (gridCellStrategy 1000000 (533/10000) 1 (1/10)).hl_split_pct ≠ 1/10 ∧
    (gridCellStrategy 1000000 (533/10000) 1 (1/10)).benchmark_rate ≠ 533/10000 := by
  refine ⟨rfl, ?_, ?_⟩ <;> norm_num [gridCellStrategy]

/-! ## Claim C7 -/

/-- C7: whatever each cell's simulation does, the grid output has exactly
`|axis1| × |axis2| = 45` rows, every `(lev, split)` cell appears, and a
cell whose simulation yields no metrics (or raises) appears as an unsafe
zero-yield row instead of being omitted. -/
theorem C7_grid_full_coverage (simulate : ℚ → ℚ → Option CellOutcome) :
    (run_grid_search simulate).length = lev_range.length * split_range.length ∧
    (run_grid_search simulate).length = 45 ∧
    ∀ lev ∈ lev_range, ∀ split ∈ split_range,
      gridCell simulate lev split ∈ run_grid_search simulate ∧
      (simulate lev split = none →
        (gridCell simulate lev split).APR = 0 ∧
        (gridCell simulate lev split).Safe = false ∧
        (gridCell simulate lev split).Leverage = lev ∧
        (gridCell simulate lev split).Split = split) := by
  refine ⟨?_, ?_, ?_⟩
  · simp [run_grid_search, lev_range, split_range]
  · simp [run_grid_search, lev_range, split_range]
  · intro lev hlev split hsplit
    refine ⟨List.mem_flatMap.mpr ⟨lev, hlev, List.mem_map_of_mem _ hsplit⟩, fun hnone => ?_⟩
    simp [gridCell, hnone]

/-- C7 witness: the all-failing simulation still yields the full 45-cell
grid, and its `(1, 0.10)` cell is the unsafe zero-yield sentinel. -/
theorem C7_grid_full_coverage_witness :
    (run_grid_search (fun _ _ => none)).length = 45 ∧
    gridCell (fun _ _ => none) 1 (1/10) ∈ run_grid_search (fun _ _ => none) ∧
    (gridCell (fun _ _ => none) 1 (1/10)).APR = 0 ∧
    (gridCell (fun _ _ => none) 1 (1/10)).Safe = false := by
  have h := C7_grid_full_coverage (fun _ _ => none)
  have h2 := h.2.2 1 (by norm_num [lev_range]) (1/10) (by norm_num [split_range])
  exact ⟨h.2.1, h2.1, (h2.2 rfl).1, (h2.2 rfl).2.1⟩

/-! ## Claim C8 -/

/-- C8: the Metrics Summarizer returns `None` exactly on result tables
with fewer than 24 rows; on 24 or more rows it returns a record whose
CAGR exponent floors the elapsed-days denominator at 1 day, whose final
equity is the last row's equity, whose max drawdown is the minimum
drawdown over the running peak, and whose Sharpe is 0 whenever the sample
standard deviation of hourly returns is 0. -/
theorem C8_metrics_guard (s : FundingStrategy) (df : List ResRow) :
    ((s.get_metrics df).isSome = true ↔ 24 ≤ df.length) ∧
    ∀ m, s.get_metrics df = some m →
      m.CAGR = Real.rpow
          (((df.getLast?.getD default).total_equity : ℝ) / (s.capital : ℝ))
          (365 / max 1
            ((((df.getLast?.getD default).datetime - df.headI.datetime) / 86400 : ℚ) : ℝ)) -
        1 ∧
      m.Final = (df.getLast?.getD default).total_equity ∧
      m.MaxDD = ((drawdowns (df.map ResRow.total_equity)).min?).getD 0 ∧
      (listStd (pctChange (df.map ResRow.total_equity)) = 0 → m.Sharpe = 0) := by
  constructor
  · rw [FundingStrategy.get_metrics]
    by_cases h : df.length < 24
    · simp only [if_pos h]; simp; omega
    · simp only [if_neg h]; simp; omega
  · intro m hm
    rw [FundingStrategy.get_metrics] at hm
    rcases lt_or_le df.length 24 with h | h
    · rw [if_pos h] at hm
      exact absurd hm (by simp)
    · rw [if_neg (not_lt.mpr h)] at hm
      injection hm with hm'
      subst hm'
      refine ⟨rfl, rfl, rfl, fun hstd => ?_⟩
      simp only [summarizeMetrics]
      rw [if_neg]
      rw [hstd]
      exact lt_irrefl 0

/-- C8 witness: a 24-row constant-equity table yields a metrics record
whose final equity is the table's last equity. -/
theorem C8_metrics_guard_witness :
    (FundingStrategy.get_metrics cfgSmall df24).isSome = true ∧
    (summarizeMetrics cfgSmall df24).Final = (df24.getLast?.getD default).total_equity := by
  have hlen : df24.length = 24 := by rw [df24, List.length_map, List.length_range]
  have hm : FundingStrategy.get_metrics cfgSmall df24 =
      some (summarizeMetrics cfgSmall df24) := by
    rw [FundingStrategy.get_metrics, if_neg (by omega)]
  exact ⟨(C8_metrics_guard cfgSmall df24).1.mpr (by omega),
    ((C8_metrics_guard cfgSmall df24).2 _ hm).2.1⟩

/-! ## Ranker loop characterisation -/

/-- The ranker loop keeps exactly the tickers with more than 24 filtered
hours, in input order, each scored by `mkRankRow`. -/
theorem rankLoop_results (b : ℚ) (fetch : String → List ℚ) :
    ∀ tickers : List String,
      (rankLoop b fetch tickers).1 =
        (tickers.filter fun t => decide (24 < (fetch t).length)).map
          fun t => mkRankRow b t (fetch t) := by
  intro tickers
  induction tickers with
  | nil => rfl
  | cons t rest ih =>
    simp only [rankLoop]
    by_cases h1 : (fetch t).isEmpty = true
    · rw [if_pos h1]
      have hno : ¬(24 < (fetch t).length) := by
        rw [List.isEmpty_iff] at h1
        rw [h1]
        norm_num
      simp [List.filter_cons, hno, ih]
    · rw [if_neg h1]
      by_cases h2 : (fetch t).length ≤ 24
      · rw [if_pos h2]
        have hno : ¬(24 < (fetch t).length) := not_lt.mpr h2
        simp [List.filter_cons, hno, ih]
      · rw [if_neg h2]
        have hyes : 24 < (fetch t).length := not_le.mp h2
        simp [List.filter_cons, hyes, ih]

/-- Every skipped ticker (at most 24 filtered hours) has its reason string
recorded in the ranker's error list. -/
theorem rankLoop_errors (b : ℚ) (fetch : String → List ℚ) :
    ∀ tickers : List String, ∀ t ∈ tickers, (fetch t).length ≤ 24 →
      (if (fetch t).isEmpty then t ++ ": Empty after filtering"
       else t ++ ": Only " ++ toString (fetch t).length ++ " hours (need >24)") ∈
        (rankLoop b fetch tickers).2 := by
  intro tickers
  induction tickers with
  | nil => intro t ht; simp at ht
  | cons t0 rest ih =>
    intro t ht hlen
    simp only [rankLoop]
    rcases List.mem_cons.mp ht with rfl | ht'
    · by_cases h1 : (fetch t).isEmpty = true
      · rw [if_pos h1]
        simp [h1]
      · rw [if_neg h1, if_pos hlen]
        simp [h1]
    · have hmem := ih t ht' hlen
      by_cases h1 : (fetch t0).isEmpty = true
      · rw [if_pos h1]
        exact List.mem_cons_of_mem _ hmem
      · rw [if_neg h1]
        by_cases h2 : (fetch t0).length ≤ 24
        · rw [if_pos h2]
          exact List.mem_cons_of_mem _ hmem
        · rw [if_neg h2]
          exact hmem

/-! ## Claim C5 -/

/-- C5 (amended): the ranked table contains exactly the tickers with
*more than 24* valid hours after filtering (so exactly-24-hour assets are
skipped), each scored as `(mean(funding) × 24 × 365 − benchmark_rate) × 100`
(percentage points), sorted descending by that score; every skipped asset
(≤ 24 hours) has its reason recorded in the side-channel list. -/
theorem C5_ranker (b : ℚ) (fetch : String → List ℚ) (tickers : List String) :
    (run_ranking b fetch tickers).1.Perm
      ((tickers.filter fun t => decide (24 < (fetch t).length)).map
        fun t => mkRankRow b t (fetch t)) ∧
    List.Sorted rank_ge (run_ranking b fetch tickers).1 ∧
    (∀ t ∈ tickers, (fetch t).length ≤ 24 →
      (if (fetch t).isEmpty then t ++ ": Empty after filtering"
       else t ++ ": Only " ++ toString (fetch t).length ++ " hours (need >24)") ∈
        (run_ranking b fetch tickers).2) ∧
    (∀ t : String, (∃ r ∈ (run_ranking b fetch tickers).1, r.Symbol = t) ↔
      (t ∈ tickers ∧ 24 < (fetch t).length)) := by
  have hres := rankLoop_results b fetch tickers
  refine ⟨?_, ?_, ?_, ?_⟩
  · exact (List.perm_insertionSort rank_ge _).trans (by rw [hres])
  · exact List.sorted_insertionSort rank_ge _
  · intro t ht hlen
    exact rankLoop_errors b fetch tickers t ht hlen
  · intro t
    constructor
    · rintro ⟨r, hr, rfl⟩
      have hr' : r ∈ (rankLoop b fetch tickers).1 := (List.mem_insertionSort rank_ge).mp hr
      rw [hres] at hr'
      obtain ⟨t', ht', hmk⟩ := List.mem_map.mp hr'
      obtain ⟨htick, hdec⟩ := List.mem_filter.mp ht'
      have hsym : r.Symbol = t' := by rw [← hmk]; rfl
      rw [hsym]
      exact ⟨htick, of_decide_eq_true hdec⟩
    · rintro ⟨ht, hlen⟩
      refine ⟨mkRankRow b t (fetch t), ?_, rfl⟩
      apply (List.mem_insertionSort rank_ge).mpr
      rw [hres]
      exact List.mem_map_of_mem _ (List.mem_filter.mpr ⟨ht, by simpa using hlen⟩)

/-- C5 counterexample: an asset with exactly 24 valid hours is dropped
(the claim would include it), and a kept asset's recorded score is 100×
the claimed `mean × 24 × 365 − benchmark` figure. -/
theorem C5_counterexample :
    (run_ranking 0 (fun _ => List.replicate 24 (1 : ℚ)) ["AAA"]).1 = [] ∧
    (run_ranking 1 (fun _ => List.replicate 25 (1 : ℚ)) ["BBB"]).1.map
        RankRow.avg_net_apr = [875900] ∧
    (875900 : ℚ) ≠ 1 * 24 * 365 - 1 := by
  refine ⟨?_, ?_, by norm_num⟩
  · simp only [run_ranking]
    rw [rankLoop_results]
    simp
  · simp only [run_ranking]
    rw [rankLoop_results]
    norm_num [mkRankRow, listMean, List.sum_replicate, List.filter]

/-- C5 witness: a two-ticker instance with one kept and one skipped-empty
asset; the skip reason is recorded and the output is sorted. -/
theorem C5_ranker_witness :
    ("BBB" ++ ": Empty after filtering") ∈
      (run_ranking 0 (fun t => if t = "AAA" then List.replicate 25 (1 : ℚ) else [])
        ["AAA", "BBB"]).2 ∧
    List.Sorted rank_ge
      (run_ranking 0 (fun t => if t = "AAA" then List.replicate 25 (1 : ℚ) else [])
        ["AAA", "BBB"]).1 := by
  have h := C5_ranker 0
    (fun t => if t = "AAA" then List.replicate 25 (1 : ℚ) else []) ["AAA", "BBB"]
  refine ⟨?_, h.2.1⟩
  have h3 := h.2.2.1 "BBB" (by simp) (by simp)
  simpa using h3

end Carry
